import Mathlib

/-!
Verification of the cpu-usage-logger measurement loop.

A shallow embedding of `src/main.rs` of the `cpu-usage-logger` utility.
The program is one measurement-and-reporting loop: each cycle it samples
per-process CPU usage, sorts the processes by usage (descending, stable),
sums the usages into a system-wide total, compares both against thresholds,
and renders alert messages to an optional log file and an optional console.

Modelling choices:
* Non-NaN `f32` usage values are embedded as exact rationals (`ℚ`); the
  NaN-sensitive comparator of the sort (`partial_cmp(..).unwrap()`) gets a
  separate model (`F32`) with an explicit NaN value, used for the safety
  claim about the unwrap.
* Rust's stable `slice::sort_by` is embedded as `List.insertionSort`, which
  is a stable sort, applied to the source's comparator
  `a.got_cpu_usage.partial_cmp(&b.got_cpu_usage).unwrap().reverse()`.
* The wall clock (`get_iso_time`, a chrono library call) is an external
  input: each cycle receives one timestamp string `ts`.
* File I/O is modelled by the list of `(path, appended text)` operations a
  cycle performs; a single file is modelled as its `String` content
  (`none` = nonexistent), appending models `OpenOptions` append+create.
-/

namespace CpuUsageLogger

/-- Per-process CPU stats, `struct ProcessStats` (main.rs lines 42-46):
the identity of the process (`pid`, `name`, from the `sysinfo::Process`
reference it holds) together with the measured `got_cpu_usage`.
Usage is embedded as an exact rational (a non-NaN `f32`). -/
structure ProcessStats where
  pid : Nat
  name : String
  got_cpu_usage : ℚ
deriving DecidableEq, Repr

/-- Run configuration, `struct Args` (main.rs lines 10-40); only the fields
the loop body reads. The two sleep durations configure real time and do not
affect any per-cycle value. -/
structure Args where
  total_log_threshold : ℚ
  process_log_threshold : ℚ
  number_of_processes_to_show : Nat
  cli : Bool
  log_file : Option String
deriving DecidableEq, Repr

/-- `f32::partial_cmp` on two non-NaN values (total there): `Ordering`
of two rationals. -/
def qcmp (a b : ℚ) : Ordering :=
  if a < b then Ordering.lt else if b < a then Ordering.gt else Ordering.eq

/-- The sort comparator of main.rs lines 109-114:
`a.got_cpu_usage.partial_cmp(&b.got_cpu_usage).unwrap().reverse()`
(on non-NaN values, where the `unwrap` cannot panic). -/
def usage_cmp (a b : ProcessStats) : Ordering :=
  (qcmp a.got_cpu_usage b.got_cpu_usage).swap

/-- `a` may be placed before `b` by `sort_by` with comparator `usage_cmp`:
the comparator did not say `Greater`. -/
def usage_le (a b : ProcessStats) : Prop :=
  usage_cmp a b ≠ Ordering.gt

instance : DecidableRel usage_le := fun a b => by
  unfold usage_le; infer_instance

theorem usage_le_iff {a b : ProcessStats} :
    usage_le a b ↔ b.got_cpu_usage ≤ a.got_cpu_usage := by
  unfold usage_le usage_cmp qcmp
  split_ifs with h1 h2
  · simp only [Ordering.swap]
    exact ⟨fun h => absurd rfl h, fun h => absurd h (not_le.mpr h1)⟩
  · simp only [Ordering.swap]
    exact ⟨fun _ => le_of_lt h2, fun _ h => Ordering.noConfusion h⟩
  · simp only [Ordering.swap]
    exact ⟨fun _ => not_lt.mp h1, fun _ h => Ordering.noConfusion h⟩

instance : IsTotal ProcessStats usage_le :=
  ⟨fun a b => by
    rcases le_total b.got_cpu_usage a.got_cpu_usage with h | h
    · exact Or.inl (usage_le_iff.mpr h)
    · exact Or.inr (usage_le_iff.mpr h)⟩

instance : IsTrans ProcessStats usage_le :=
  ⟨fun _ _ _ hab hbc =>
    usage_le_iff.mpr (le_trans (usage_le_iff.mp hbc) (usage_le_iff.mp hab))⟩

/-- The sort of main.rs lines 109-114: Rust's stable `slice::sort_by` with
comparator `usage_cmp`, embedded as the stable `List.insertionSort`.
The result is ordered descending by `got_cpu_usage`. -/
def sortProcesses (l : List ProcessStats) : List ProcessStats :=
  l.insertionSort usage_le

/-- The sorted output is a permutation of the input. -/
theorem sortProcesses_perm (l : List ProcessStats) :
    List.Perm (sortProcesses l) l :=
  List.perm_insertionSort usage_le l

/-- The sorted output is pairwise non-increasing in `got_cpu_usage`. -/
theorem sortProcesses_sorted (l : List ProcessStats) :
    (sortProcesses l).Pairwise
      (fun a b => b.got_cpu_usage ≤ a.got_cpu_usage) :=
  (List.sorted_insertionSort usage_le l).imp (fun h => usage_le_iff.mp h)

/-- Stability of the sort: the elements of any one usage value keep their
original relative order (their filtered sublist is unchanged). -/
theorem sortProcesses_stable (l : List ProcessStats) (u : ℚ) :
    (sortProcesses l).filter (fun p => p.got_cpu_usage = u) =
      l.filter (fun p => p.got_cpu_usage = u) := by
  set P : ProcessStats → Bool := fun p => decide (p.got_cpu_usage = u) with hP
  have hpw : (l.filter P).Pairwise usage_le := by
    refine List.pairwise_of_forall_mem_list ?_
    intro a ha b hb
    have ha' : a.got_cpu_usage = u := by
      simpa [hP] using ( List.of_mem_filter ha)
    have hb' : b.got_cpu_usage = u := by
      simpa [hP] using ( List.of_mem_filter hb)
    exact usage_le_iff.mpr (by rw [ha', hb'])
  have hsub : List.Sublist (l.filter P) (sortProcesses l) :=
    List.sublist_insertionSort hpw (List.filter_sublist l)
  have hself : (l.filter P).filter P = l.filter P :=
    List.filter_eq_self.mpr (fun a ha => List.of_mem_filter ha)
  have hsub2 : List.Sublist (l.filter P) ((sortProcesses l).filter P) := by
    have := List.Sublist.filter P hsub
    rwa [hself] at this
  have hlen : ((sortProcesses l).filter P).length = (l.filter P).length :=
    ((sortProcesses_perm l).filter P).length_eq
  exact (hsub2.eq_of_length hlen.symm).symm

/-! Formatting primitives. These embed the Rust `format!` paddings used in
`format_stats` (main.rs lines 202-220): left-justify / center with a fill
char and a minimum width; a string at least as wide is left unchanged, and
extra center padding goes to the right, as in Rust. -/

/-- Rust left-justified padding to width `w` with fill `c`. -/
def padLeftJust (s : String) (w : Nat) (c : Char) : String :=
  s ++ String.mk (List.replicate (w - s.length) c)

/-- Rust centered padding to width `w` with fill `c` (extra fill on the
right, as the Rust formatter does). -/
def padCenter (s : String) (w : Nat) (c : Char) : String :=
  let total := w - s.length
  let left := total / 2
  String.mk (List.replicate left c) ++ s ++
    String.mk (List.replicate (total - left) c)

/-- Two-decimal rendering of a usage value, embedding the Rust format
precision `.2` on `f32`. Idealized to exact rationals with round-to-nearest
on the second decimal; no claim depends on the digits produced. -/
def fmt2 (q : ℚ) : String :=
  let n : ℤ := round (q * 100)
  let sign := if n < 0 then "-" else ""
  let m := n.natAbs
  sign ++ toString (m / 100) ++ "." ++
    (if m % 100 < 10 then "0" else "") ++ toString (m % 100)

/-- One body row of the stats table (main.rs lines 211-218): pid, name and
two-decimal usage with a percent suffix, in columns of content width
10/50/10. -/
def format_row (p : ProcessStats) : String :=
  "| " ++ padLeftJust (toString p.pid) 10 ' ' ++ " | " ++
    padLeftJust p.name 50 ' ' ++ " | " ++
    padLeftJust (fmt2 p.got_cpu_usage ++ " %") 10 ' ' ++ " |"

/-- The bordered stats table, `fn format_stats` (main.rs lines 201-220):
centered header, centered total, centered timestamp, divider, column-name
row, sub-divider, one row per shown process (the first `num_processes` of
the sorted list), closing divider. The timestamp `ts` is the cycle's
`get_iso_time()` string, an external input of the embedding. -/
def format_stats (cpu_stats : List ProcessStats) (total_cpu_usage : ℚ)
    (num_processes : Nat) (ts : String) : String :=
  padCenter "CPU usage" 80 '-' ++ "\n" ++
  "|" ++ padCenter (fmt2 total_cpu_usage ++ " %") 78 ' ' ++ "|" ++ "\n" ++
  "|" ++ padCenter ts 78 ' ' ++ "|" ++ "\n" ++
  padCenter "" 80 '-' ++ "\n" ++
  "| " ++ padLeftJust "PID" 10 ' ' ++ " | " ++ padLeftJust "Name" 50 ' ' ++
    " | " ++ padLeftJust "Usage" 10 ' ' ++ " |" ++ "\n" ++
  "|" ++ padLeftJust "" 12 '-' ++ "|" ++ padLeftJust "" 52 '-' ++ "|" ++
    padLeftJust "" 12 '-' ++ "|" ++ "\n" ++
  (((cpu_stats.take num_processes).map format_row).foldl
      (fun ret new => ret ++ "\n" ++ new) "").trim ++ "\n" ++
  padCenter "" 80 '-'

/-! The log-file sink, `fn log_to_file` (main.rs lines 222-246). The
message is wrapped in a leading and a trailing newline, split on newlines,
every piece is prefixed with the timestamp and a separator, the pieces are
rejoined, and the result is written with a final newline to the file opened
in append-and-create mode. `str::split` and `Vec::join` are embedded
directly so that the definitions compute structurally. -/

/-- Embeds Rust `str::split(c)`: splits at every occurrence of `c`,
keeping empty pieces (a list of `n` separators yields `n + 1` pieces). -/
def split_char_list (c : Char) : List Char → List (List Char)
  | [] => [[]]
  | a :: rest =>
    let r := split_char_list c rest
    if a = c then [] :: r
    else
      match r with
      | [] => [[a]]
      | h :: t => (a :: h) :: t

/-- `str::split('\n')` on a string. -/
def split_newlines (s : String) : List String :=
  (split_char_list '\n' s.data).map (fun cs => String.mk cs)

/-- Embeds `Vec::join(sep)`: interleave `sep` between the pieces. -/
def join_with (sep : String) : List String → String
  | [] => ""
  | [x] => x
  | x :: xs => x ++ sep ++ join_with sep xs

/-- The processed message of `log_to_file` (main.rs lines 229-235): wrap
the message in a leading and trailing newline, split on newlines, prefix
every line with the timestamp and a separator, rejoin. -/
def processed_message (ts message : String) : String :=
  join_with "\n"
    ((split_newlines ("\n" ++ message ++ "\n")).map
      (fun m => (ts ++ " | ") ++ m))

/-- The full text one `log_to_file` call appends to the file: the
processed message plus the final newline of `writeln!` (main.rs line
245). -/
def log_append_text (ts message : String) : String :=
  processed_message ts message ++ "\n"

/-- The file-operation list of one `log_to_file` call: nothing when no
path is configured (the early return of main.rs lines 224-227, before any
file is touched), otherwise one append of `log_append_text` to the
configured path. -/
def log_to_file_writes (file_path : Option String) (ts message : String) :
    List (String × String) :=
  match file_path with
  | none => []
  | some path => [(path, log_append_text ts message)]

/-- Content of one log file after a `log_to_file` call, `old = none`
meaning the file does not exist yet (append mode with create). -/
def log_file_after (old : Option String) (ts message : String) : String :=
  old.getD "" ++ log_append_text ts message

/-- Apply one append operation to a filesystem modelled as a map from path
to optional content. -/
def apply_write (fs : String → Option String) (w : String × String) :
    String → Option String :=
  fun path => if path = w.1 then some ((fs w.1).getD "" ++ w.2) else fs path

/-- Apply a list of append operations in order. -/
def apply_writes (fs : String → Option String)
    (ws : List (String × String)) : String → Option String :=
  ws.foldl apply_write fs

/-! One iteration of the measurement loop (main.rs lines 87-198), from the
point where the per-process usages have been measured. The cycle receives
the measured process list `procs`, the parsed `args`, and the cycle's
timestamp string `ts` (the external `get_iso_time()` input). -/

/-- `total_cpu_usage` of main.rs line 117: the sum of the usages, iterated
over the sorted list (the sort of lines 109-114 runs first). -/
def total_cpu_usage_of (procs : List ProcessStats) : ℚ :=
  ((sortProcesses procs).map (fun v => v.got_cpu_usage)).sum

/-- The stats table of the cycle: `format_stats(&cpu_stats,
total_cpu_usage, number_of_processes_to_show)` on the sorted list. -/
def tableOf (args : Args) (procs : List ProcessStats) (ts : String) :
    String :=
  format_stats (sortProcesses procs) (total_cpu_usage_of procs)
    args.number_of_processes_to_show ts

/-- Text of the system-wide alert (main.rs lines 130-133). -/
def total_message_str (args : Args) (procs : List ProcessStats) : String :=
  "Total CPU usage threshold of " ++ fmt2 args.total_log_threshold ++
    "% exceeded -> " ++ fmt2 (total_cpu_usage_of procs) ++ "%"

/-- `total_cpu_usage_message` (main.rs lines 121-133): produced exactly
when `total_cpu_usage >= total_log_threshold`. -/
def total_message_of (args : Args) (procs : List ProcessStats) :
    Option String :=
  if args.total_log_threshold ≤ total_cpu_usage_of procs then
    some (total_message_str args procs)
  else none

/-- `formatted_stats` as set inside the threshold branch (main.rs lines
124-128): the table, computed only when the system-wide threshold fired. -/
def formatted_at_threshold (args : Args) (procs : List ProcessStats)
    (ts : String) : Option String :=
  if args.total_log_threshold ≤ total_cpu_usage_of procs then
    some (tableOf args procs ts)
  else none

/-- `logged_message` of the system-wide alert (main.rs lines 137-141):
the alert line followed by the table. -/
def logged_message_of (args : Args) (procs : List ProcessStats)
    (ts : String) : String :=
  total_message_str args procs ++ "\n" ++ tableOf args procs ts

/-- The per-process alert selection (main.rs lines 146-150): walk the
sorted list and take while `got_cpu_usage >= process_log_threshold`. -/
def alerted_of (args : Args) (procs : List ProcessStats) :
    List ProcessStats :=
  (sortProcesses procs).takeWhile
    (fun p => args.process_log_threshold ≤ p.got_cpu_usage)

/-- One line of the per-process alert (main.rs lines 157-164). -/
def process_line (thr : ℚ) (p : ProcessStats) : String :=
  "Single process CPU usage threshold of " ++ fmt2 thr ++
    "% exceeded -> [Pid: " ++ toString p.pid ++ "] Name: \x27" ++
    p.name ++ "\x27 Usage: " ++ fmt2 p.got_cpu_usage ++ "%"

/-- One step of the `for_each` of main.rs lines 151-165: the existing
message text plus a newline (or nothing), then the new line. -/
def pm_step (thr : ℚ) (acc : Option String) (p : ProcessStats) :
    Option String :=
  some ((match acc with
         | some s => s ++ "\n"
         | none => "") ++ process_line thr p)

/-- The accumulation of `process_cpu_usage_message` (main.rs lines
146-165): starting from `None`, every selected process appends its line
(after the existing text and a newline, when any). -/
def process_message_fold (thr : ℚ) (l : List ProcessStats) :
    Option String :=
  l.foldl (pm_step thr) none

/-- `process_cpu_usage_message` of the cycle. -/
def process_message_of (args : Args) (procs : List ProcessStats) :
    Option String :=
  process_message_fold args.process_log_threshold (alerted_of args procs)

/-- All file operations of the cycle, in order: the system-wide alert log
call (main.rs line 143, inside the threshold branch) followed by the
per-process alert log call (main.rs lines 166-168, only when the message
exists). -/
def log_writes_of (args : Args) (procs : List ProcessStats) (ts : String) :
    List (String × String) :=
  (if args.total_log_threshold ≤ total_cpu_usage_of procs then
    log_to_file_writes args.log_file ts (logged_message_of args procs ts)
  else []) ++
  (match process_message_of args procs with
   | some m => log_to_file_writes args.log_file ts m
   | none => [])

/-- The console output of the cycle as the list of `println!` strings
(main.rs lines 171-194): when `cli` is set, the table — reusing
`formatted_stats` when the threshold branch already computed it, otherwise
computing it now (the `or_else` of lines 173-179) — then the two optional
alert messages, each preceded by a blank line. -/
def console_of (args : Args) (procs : List ProcessStats) (ts : String) :
    List String :=
  if args.cli then
    (match formatted_at_threshold args procs ts with
     | some f => f
     | none => tableOf args procs ts) ::
    ((match total_message_of args procs with
      | some m => ["\n" ++ m]
      | none => []) ++
     (match process_message_of args procs with
      | some m => ["\n" ++ m]
      | none => []))
  else []

/-- Variant of `console_of` that always recomputes the table at display
time instead of reusing the one computed in the threshold branch. -/
def console_of_recompute (args : Args) (procs : List ProcessStats)
    (ts : String) : List String :=
  if args.cli then
    tableOf args procs ts ::
    ((match total_message_of args procs with
      | some m => ["\n" ++ m]
      | none => []) ++
     (match process_message_of args procs with
      | some m => ["\n" ++ m]
      | none => []))
  else []

/-- The observable outcome of one loop iteration. -/
structure CycleResult where
  sorted_processes : List ProcessStats
  total_cpu_usage : ℚ
  total_cpu_usage_message : Option String
  process_cpu_usage_message : Option String
  log_writes : List (String × String)
  console_output : List String
deriving DecidableEq

/-- One iteration of the loop body, main.rs lines 87-198. -/
def runCycle (args : Args) (procs : List ProcessStats) (ts : String) :
    CycleResult where
  sorted_processes := sortProcesses procs
  total_cpu_usage := total_cpu_usage_of procs
  total_cpu_usage_message := total_message_of args procs
  process_cpu_usage_message := process_message_of args procs
  log_writes := log_writes_of args procs ts
  console_output := console_of args procs ts

/-- The iteration with the table recomputed for console display. -/
def runCycleRecompute (args : Args) (procs : List ProcessStats)
    (ts : String) : CycleResult where
  sorted_processes := sortProcesses procs
  total_cpu_usage := total_cpu_usage_of procs
  total_cpu_usage_message := total_message_of args procs
  process_cpu_usage_message := process_message_of args procs
  log_writes := log_writes_of args procs ts
  console_output := console_of_recompute args procs ts

/-! The NaN-sensitive sort comparator. The Rust comparator of main.rs
lines 109-114 calls `partial_cmp(..).unwrap()`, which panics when a usage
is NaN. `F32` models `f32` values with NaN and the infinities explicit
(finite values idealized to exact rationals, no negative zero, no
overflow). -/

/-- An `f32` value: NaN, the infinities, or a finite value. -/
inductive F32 where
  | nan : F32
  | inf : F32
  | neginf : F32
  | val : ℚ → F32
deriving DecidableEq

/-- `f32::partial_cmp`: `None` exactly when an operand is NaN. -/
def F32.pcmp : F32 → F32 → Option Ordering
  | F32.nan, _ => none
  | _, F32.nan => none
  | F32.inf, F32.inf => some Ordering.eq
  | F32.neginf, F32.neginf => some Ordering.eq
  | F32.inf, _ => some Ordering.gt
  | _, F32.inf => some Ordering.lt
  | F32.neginf, _ => some Ordering.lt
  | _, F32.neginf => some Ordering.gt
  | F32.val a, F32.val b => some (qcmp a b)

/-- `f32` division (main.rs line 106 divides the raw usage by the core
count): zero over zero is NaN, nonzero over zero an infinity. -/
def F32.div : F32 → F32 → F32
  | F32.nan, _ => F32.nan
  | _, F32.nan => F32.nan
  | F32.inf, F32.inf => F32.nan
  | F32.inf, F32.neginf => F32.nan
  | F32.neginf, F32.inf => F32.nan
  | F32.neginf, F32.neginf => F32.nan
  | F32.inf, F32.val b => if b < 0 then F32.neginf else F32.inf
  | F32.neginf, F32.val b => if b < 0 then F32.inf else F32.neginf
  | F32.val _, F32.inf => F32.val 0
  | F32.val _, F32.neginf => F32.val 0
  | F32.val a, F32.val b =>
    if b = 0 then
      if a = 0 then F32.nan
      else if 0 < a then F32.inf
      else F32.neginf
    else F32.val (a / b)

/-- Per-process stats with the usage kept as a raw `f32` value. -/
structure ProcessStatsF where
  pid : Nat
  name : String
  got_cpu_usage : F32
deriving DecidableEq

/-- The comparator of main.rs lines 109-114 with the possible panic of
`unwrap` explicit: `none` is the panic. -/
def cmp_desc (a b : ProcessStatsF) : Option Ordering :=
  (F32.pcmp a.got_cpu_usage b.got_cpu_usage).map Ordering.swap

/-- Insertion into a sorted list through the panicking comparator:
`none` propagates a comparator panic. -/
def ordered_insert_p (a : ProcessStatsF) :
    List ProcessStatsF → Option (List ProcessStatsF)
  | [] => some [a]
  | b :: l =>
    match cmp_desc a b with
    | none => none
    | some Ordering.lt => some (a :: b :: l)
    | some _ => (ordered_insert_p a l).map (fun m => b :: m)

/-- The stable sort of main.rs lines 109-114 through the panicking
comparator: `none` means some comparator call panicked. -/
def insertion_sort_p : List ProcessStatsF → Option (List ProcessStatsF)
  | [] => some []
  | a :: l =>
    match insertion_sort_p l with
    | none => none
    | some m => ordered_insert_p a m

/-! Startup (main.rs lines 77-87). `physical_core_count()` returns an
`Option`; the `unwrap` of line 85 panics on `None` — a Rust panic aborts
the process and prints its diagnostic to the standard error stream — and
the panic happens before the `loop` of line 87 is entered. -/

/-- Outcome of startup: either the process aborted with a panic message
(printed to standard error), or the measurement loop was entered with the
given core count. -/
inductive StartupOutcome where
  | panicked : String → StartupOutcome
  | entered_loop : ℚ → StartupOutcome
deriving DecidableEq

/-- `main` up to entering the loop (main.rs lines 77-87): unwrap the
physical core count, then enter the loop; `None` panics first. -/
def main_startup (physical_core_count : Option Nat) : StartupOutcome :=
  match physical_core_count with
  | none => StartupOutcome.panicked "called Option::unwrap() on a None value"
  | some n => StartupOutcome.entered_loop (n : ℚ)

/-! Helper lemmas about the threshold evaluator. -/

/-- In a list sorted non-increasing by usage, every member at or above the
threshold is kept by the `take_while` selection. -/
theorem mem_takeWhile_usage_ge {thr : ℚ} {p : ProcessStats} :
    ∀ {l : List ProcessStats},
      l.Pairwise (fun a b => b.got_cpu_usage ≤ a.got_cpu_usage) →
      p ∈ l → thr ≤ p.got_cpu_usage →
      p ∈ l.takeWhile (fun q => thr ≤ q.got_cpu_usage)
  | [], _, hmem, _ => absurd hmem (List.not_mem_nil p)
  | a :: t, hpw, hmem, hthr => by
    rw [List.takeWhile_cons]
    rcases List.mem_cons.mp hmem with rfl | ht
    · simp [hthr]
    · have hle : p.got_cpu_usage ≤ a.got_cpu_usage :=
        (List.pairwise_cons.mp hpw).1 p ht
      have ha : thr ≤ a.got_cpu_usage := le_trans hthr hle
      rw [if_pos (decide_eq_true ha)]
      exact List.mem_cons_of_mem a
        (mem_takeWhile_usage_ge (List.pairwise_cons.mp hpw).2 ht hthr)

/-- Folding the message step over any list from an existing message keeps
the message existing. -/
theorem pm_foldl_isSome (thr : ℚ) :
    ∀ (l : List ProcessStats) (s : String),
      (l.foldl (pm_step thr) (some s)).isSome = true
  | [], _ => rfl
  | a :: t, s => by
    rw [List.foldl_cons]
    exact pm_foldl_isSome thr t _

/-- A nonempty selection produces a per-process message. -/
theorem process_message_isSome_of_ne_nil {args : Args}
    {procs : List ProcessStats} (h : alerted_of args procs ≠ []) :
    (process_message_of args procs).isSome = true := by
  unfold process_message_of process_message_fold
  cases halert : alerted_of args procs with
  | nil => exact absurd halert h
  | cons a t =>
    rw [List.foldl_cons]
    exact pm_foldl_isSome _ t _

/-- When every measured process is below the per-process threshold, the
selection is empty. -/
theorem alerted_of_eq_nil {args : Args} {procs : List ProcessStats}
    (h : ∀ p ∈ procs, p.got_cpu_usage < args.process_log_threshold) :
    alerted_of args procs = [] := by
  unfold alerted_of
  cases hs : sortProcesses procs with
  | nil => rfl
  | cons a t =>
    have ha : a ∈ procs :=
      (sortProcesses_perm procs).subset (hs ▸ List.mem_cons_self a t)
    rw [List.takeWhile_cons]
    simp [not_le.mpr (h a ha)]

/-- C1: the sorted process list produced each cycle is non-increasing in
`got_cpu_usage`, is a permutation of the measured input list, and is
stable: the elements of any one usage value keep their original relative
order. -/
theorem C1_sort_desc_perm_stable (args : Args) (procs : List ProcessStats)
    (ts : String) :
    ((runCycle args procs ts).sorted_processes).Pairwise
        (fun a b => b.got_cpu_usage ≤ a.got_cpu_usage) ∧
    List.Perm ((runCycle args procs ts).sorted_processes) procs ∧
    (∀ u : ℚ,
      ((runCycle args procs ts).sorted_processes).filter
          (fun p => p.got_cpu_usage = u) =
        procs.filter (fun p => p.got_cpu_usage = u)) :=
  ⟨sortProcesses_sorted procs, sortProcesses_perm procs,
    fun u => sortProcesses_stable procs u⟩

/-- C2: each cycle's `total_cpu_usage` is the sum, in the iteration order
of the sorted list, of all per-process usages — which (sums of rationals
being permutation-invariant) is the sum over the cycle's sample. -/
theorem C2_total_is_sum (args : Args) (procs : List ProcessStats)
    (ts : String) :
    (runCycle args procs ts).total_cpu_usage =
      (((runCycle args procs ts).sorted_processes).map
        (fun p => p.got_cpu_usage)).sum ∧
    (runCycle args procs ts).total_cpu_usage =
      (procs.map (fun p => p.got_cpu_usage)).sum := by
  refine ⟨rfl, ?_⟩
  show ((sortProcesses procs).map (fun p => p.got_cpu_usage)).sum =
    (procs.map (fun p => p.got_cpu_usage)).sum
  exact List.Perm.sum_eq ((sortProcesses_perm procs).map _)

/-- C3: both threshold comparisons are inclusive. A total exactly equal to
`total_log_threshold` produces the system-wide alert, and a process whose
usage exactly equals `process_log_threshold` is selected for (and hence
makes nonempty) the per-process alert message. -/
theorem C3_thresholds_inclusive (args : Args) (procs : List ProcessStats)
    (p : ProcessStats)
    (h1 : total_cpu_usage_of procs = args.total_log_threshold)
    (h2 : p ∈ procs)
    (h3 : p.got_cpu_usage = args.process_log_threshold) :
    (total_message_of args procs).isSome = true ∧
    p ∈ alerted_of args procs ∧
    (process_message_of args procs).isSome = true := by
  have ht : args.total_log_threshold ≤ total_cpu_usage_of procs :=
    le_of_eq h1.symm
  have hmem : p ∈ sortProcesses procs :=
    ((sortProcesses_perm procs).mem_iff).mpr h2
  have halert : p ∈ alerted_of args procs := by
    unfold alerted_of
    exact mem_takeWhile_usage_ge (sortProcesses_sorted procs) hmem
      (le_of_eq h3.symm)
  refine ⟨?_, halert, ?_⟩
  · unfold total_message_of
    rw [if_pos ht]
    rfl
  · refine process_message_isSome_of_ne_nil (fun hnil => ?_)
    rw [hnil] at halert
    exact absurd halert (List.not_mem_nil p)

/-- C3 witness: with both thresholds hit exactly (total `10 = 10`,
process usage `10 = 10`), the alerts fire. -/
theorem C3_witness :
    (total_message_of ⟨10, 10, 5, false, none⟩
        [⟨1, "a", 10⟩]).isSome = true ∧
    (⟨1, "a", 10⟩ : ProcessStats) ∈
      alerted_of ⟨10, 10, 5, false, none⟩ [⟨1, "a", 10⟩] ∧
    (process_message_of ⟨10, 10, 5, false, none⟩
        [⟨1, "a", 10⟩]).isSome = true :=
  C3_thresholds_inclusive ⟨10, 10, 5, false, none⟩
    [⟨1, "a", 10⟩] ⟨1, "a", 10⟩
    (by simp [total_cpu_usage_of, sortProcesses, List.insertionSort,
      List.orderedInsert])
    (by decide) (by decide)

/-- C4: the per-process selection is exactly the prefix of the sorted
list of processes at or above the threshold: the selection followed by
the rest is the sorted list, every selected process breaches, and (the
list being sorted) every breaching process is selected. -/
theorem C4_selection_breaching_front (args : Args)
    (procs : List ProcessStats) :
    alerted_of args procs ++
        ((sortProcesses procs).dropWhile
          (fun p => args.process_log_threshold ≤ p.got_cpu_usage)) =
      sortProcesses procs ∧
    (∀ p ∈ alerted_of args procs,
        args.process_log_threshold ≤ p.got_cpu_usage) ∧
    (∀ p ∈ procs, args.process_log_threshold ≤ p.got_cpu_usage →
        p ∈ alerted_of args procs) := by
  refine ⟨?_, ?_, ?_⟩
  · unfold alerted_of
    exact List.takeWhile_append_dropWhile _ _
  · intro p hp
    have := List.mem_takeWhile_imp hp
    simpa using this
  · intro p hp hthr
    exact mem_takeWhile_usage_ge (sortProcesses_sorted procs)
      (((sortProcesses_perm procs).mem_iff).mpr hp) hthr

/-- C4 witness: in a concrete cycle the breaching process is selected. -/
theorem C4_witness :
    (⟨2, "b", 20⟩ : ProcessStats) ∈
      alerted_of ⟨30, 15, 5, false, none⟩
        [⟨1, "a", 2⟩, ⟨2, "b", 20⟩, ⟨3, "c", 1⟩] :=
  (C4_selection_breaching_front ⟨30, 15, 5, false, none⟩
      [⟨1, "a", 2⟩, ⟨2, "b", 20⟩, ⟨3, "c", 1⟩]).2.2
    ⟨2, "b", 20⟩ (by decide) (by decide)

/-- C5 counterexample: appending the two-line message `"A\nB"` with
timestamp `"T"` to an empty or nonexistent file does NOT leave exactly the
two timestamped message lines plus one following blank timestamped line —
the code wraps the message in a leading as well as a trailing newline
(main.rs line 231), so a blank timestamped line also PRECEDES the message
lines. -/
theorem C5_counterexample :
    log_file_after none "T" "A\nB" ≠ "T | A\nT | B\nT | \n" ∧
    log_file_after none "T" "A\nB" = "T | \nT | A\nT | B\nT | \n" :=
  ⟨by decide, rfl⟩

/-- C5 as amended: appending one two-line alert message appends one
PRECEDING blank timestamped line, the two timestamped message lines, and
one following blank timestamped line (with the final newline of
`writeln!`), and any pre-existing file content is untouched; without a
configured path it is exactly one append to that path. -/
theorem C5_amended_append_shape (path ts : String) (old : Option String) :
    log_to_file_writes (some path) ts "A\nB" =
      [(path, log_append_text ts "A\nB")] ∧
    log_file_after old ts "A\nB" =
      old.getD "" ++ ts ++ " | " ++ "\n" ++ ts ++ " | " ++ "A" ++ "\n" ++
        ts ++ " | " ++ "B" ++ "\n" ++ ts ++ " | " ++ "\n" := by
  refine ⟨rfl, ?_⟩
  unfold log_file_after log_append_text processed_message
  have h : split_newlines ("\n" ++ "A\nB" ++ "\n") = ["", "A", "B", ""] :=
    rfl
  rw [h]
  simp [join_with, String.append_assoc]

/-- C6: in a cycle with the total below the system-wide threshold and
every per-process usage below the per-process threshold, no alert message
is produced, no file operation happens, and (when console mode is on) the
console still shows exactly the plain table. -/
theorem C6_no_breach_no_alert (args : Args) (procs : List ProcessStats)
    (ts : String)
    (h1 : total_cpu_usage_of procs < args.total_log_threshold)
    (h2 : ∀ p ∈ procs, p.got_cpu_usage < args.process_log_threshold) :
    (runCycle args procs ts).total_cpu_usage_message = none ∧
    (runCycle args procs ts).process_cpu_usage_message = none ∧
    (runCycle args procs ts).log_writes = [] ∧
    (args.cli = true →
      (runCycle args procs ts).console_output = [tableOf args procs ts]) := by
  have hnt : ¬ args.total_log_threshold ≤ total_cpu_usage_of procs :=
    not_le.mpr h1
  have htm : total_message_of args procs = none := by
    unfold total_message_of
    rw [if_neg hnt]
  have hpm : process_message_of args procs = none := by
    unfold process_message_of
    rw [alerted_of_eq_nil h2]
    rfl
  refine ⟨htm, hpm, ?_, ?_⟩
  · show log_writes_of args procs ts = []
    unfold log_writes_of
    rw [if_neg hnt, hpm]
    rfl
  · intro hcli
    show console_of args procs ts = [tableOf args procs ts]
    unfold console_of formatted_at_threshold
    rw [hcli, if_neg hnt, htm, hpm]
    rfl

/-- C6 witness: one low-usage process, both thresholds clear, console
mode on and a log path configured. -/
theorem C6_witness :
    (runCycle ⟨30, 15, 5, true, some "log.txt"⟩ [⟨1, "a", 2⟩]
        "T").total_cpu_usage_message = none ∧
    (runCycle ⟨30, 15, 5, true, some "log.txt"⟩ [⟨1, "a", 2⟩]
        "T").process_cpu_usage_message = none ∧
    (runCycle ⟨30, 15, 5, true, some "log.txt"⟩ [⟨1, "a", 2⟩]
        "T").log_writes = [] ∧
    ((⟨30, 15, 5, true, some "log.txt"⟩ : Args).cli = true →
      (runCycle ⟨30, 15, 5, true, some "log.txt"⟩ [⟨1, "a", 2⟩]
          "T").console_output =
        [tableOf ⟨30, 15, 5, true, some "log.txt"⟩ [⟨1, "a", 2⟩] "T"]) :=
  C6_no_breach_no_alert ⟨30, 15, 5, true, some "log.txt"⟩ [⟨1, "a", 2⟩] "T"
    (by simp [total_cpu_usage_of, sortProcesses, List.insertionSort,
      List.orderedInsert]; decide)
    (by decide)

/-- C7: with no configured log path, `log_to_file` performs no file
operation at all — the filesystem is unchanged whatever the message — and
returns without error (the early return of main.rs lines 224-227 precedes
every file operation, so no error case exists). -/
theorem C7_none_path_no_io (ts message : String)
    (fs : String → Option String) :
    log_to_file_writes none ts message = [] ∧
    apply_writes fs (log_to_file_writes none ts message) = fs :=
  ⟨rfl, rfl⟩

/-- C8: when the physical core count is unavailable at startup, the
`unwrap` of main.rs line 85 panics — aborting the process with its
diagnostic on the standard error stream — and this happens before the
`loop` of line 87, which is therefore never entered. -/
theorem C8_core_count_none_fatal :
    main_startup none =
      StartupOutcome.panicked "called Option::unwrap() on a None value" ∧
    ∀ q : ℚ, main_startup none ≠ StartupOutcome.entered_loop q :=
  ⟨rfl, fun _ h => StartupOutcome.noConfusion h⟩

/-- C8 witness: in particular the loop is not entered with core count 4. -/
theorem C8_witness :
    main_startup none ≠ StartupOutcome.entered_loop 4 :=
  C8_core_count_none_fatal.2 4

/-- C9: computing the stats table once in the threshold branch and
reusing it for console display is observably identical to recomputing
`format_stats` at display time — the whole cycle outcome is equal. -/
theorem C9_reuse_equals_recompute (args : Args) (procs : List ProcessStats)
    (ts : String) :
    runCycle args procs ts = runCycleRecompute args procs ts := by
  have h : console_of args procs ts = console_of_recompute args procs ts := by
    unfold console_of console_of_recompute formatted_at_threshold
    by_cases hb : args.total_log_threshold ≤ total_cpu_usage_of procs <;>
      simp [hb]
  unfold runCycle runCycleRecompute
  rw [h]

/-! Lemmas for the NaN-safety of the sort comparator. -/

/-- `partial_cmp` is total on non-NaN values. -/
theorem F32.pcmp_isSome :
    ∀ {a b : F32}, a ≠ F32.nan → b ≠ F32.nan →
      (F32.pcmp a b).isSome = true := by
  intro a b ha hb
  cases a <;> cases b <;> simp_all [F32.pcmp]

/-- Inserting a non-NaN element through the panicking comparator into a
list of non-NaN elements cannot panic, and introduces no new element. -/
theorem ordered_insert_p_total (a : ProcessStatsF) :
    ∀ (l : List ProcessStatsF),
      a.got_cpu_usage ≠ F32.nan →
      (∀ x ∈ l, x.got_cpu_usage ≠ F32.nan) →
      ∃ m, ordered_insert_p a l = some m ∧ ∀ x ∈ m, x = a ∨ x ∈ l
  | [], _, _ => ⟨[a], rfl, by simp⟩
  | b :: t, ha, hl => by
    have hb : b.got_cpu_usage ≠ F32.nan := hl b (List.mem_cons_self b t)
    have hcmp : (cmp_desc a b).isSome = true := by
      unfold cmp_desc
      have hps := F32.pcmp_isSome ha hb
      cases hpc : F32.pcmp a.got_cpu_usage b.got_cpu_usage with
      | none => rw [hpc] at hps; exact absurd hps (by simp)
      | some o => rfl
    obtain ⟨ord, hord⟩ := Option.isSome_iff_exists.mp hcmp
    obtain ⟨m, hm, hmem⟩ :=
      ordered_insert_p_total a t ha
        (fun x hx => hl x (List.mem_cons_of_mem b hx))
    cases ord with
    | lt =>
      refine ⟨a :: b :: t, by simp [ordered_insert_p, hord], ?_⟩
      intro x hx
      simpa using hx
    | eq =>
      refine ⟨b :: m, by simp [ordered_insert_p, hord, hm], ?_⟩
      intro x hx
      rcases List.mem_cons.mp hx with rfl | hx2
      · exact Or.inr (List.mem_cons_self x t)
      · rcases hmem x hx2 with rfl | hx3
        · exact Or.inl rfl
        · exact Or.inr (List.mem_cons_of_mem b hx3)
    | gt =>
      refine ⟨b :: m, by simp [ordered_insert_p, hord, hm], ?_⟩
      intro x hx
      rcases List.mem_cons.mp hx with rfl | hx2
      · exact Or.inr (List.mem_cons_self x t)
      · rcases hmem x hx2 with rfl | hx3
        · exact Or.inl rfl
        · exact Or.inr (List.mem_cons_of_mem b hx3)

/-- Sorting a list of non-NaN usages through the panicking comparator
cannot panic, and produces a list of the same elements. -/
theorem insertion_sort_p_total :
    ∀ (l : List ProcessStatsF),
      (∀ x ∈ l, x.got_cpu_usage ≠ F32.nan) →
      ∃ m, insertion_sort_p l = some m ∧ ∀ x ∈ m, x ∈ l
  | [], _ => ⟨[], rfl, by simp⟩
  | a :: t, h => by
    obtain ⟨m, hm, hmem⟩ :=
      insertion_sort_p_total t
        (fun x hx => h x (List.mem_cons_of_mem a hx))
    obtain ⟨m2, hm2, hmem2⟩ :=
      ordered_insert_p_total a m (h a (List.mem_cons_self a t))
        (fun x hx => h x (List.mem_cons_of_mem a (hmem x hx)))
    refine ⟨m2, by simp [insertion_sort_p, hm, hm2], ?_⟩
    intro x hx
    rcases hmem2 x hx with rfl | hx2
    · exact List.mem_cons_self x t
    · exact List.mem_cons_of_mem a (hmem x hx2)

/-- C10: the sort comparator unwraps `partial_cmp` of two usage values, so
when every measured `got_cpu_usage` is non-NaN, no comparator call in the
sort can panic (the unwrap's panic branch is unreachable). The precondition
needs the core-count divisor nonzero: with a zero divisor an idle
process's usage is `0.0 / 0.0 = NaN` (second conjunct), and with a NaN
usage present the sort does panic (third conjunct). -/
theorem C10_sort_unwrap_safe (l : List ProcessStatsF)
    (h : ∀ p ∈ l, p.got_cpu_usage ≠ F32.nan) :
    (insertion_sort_p l).isSome = true ∧
    F32.div (F32.val 0) (F32.val 0) = F32.nan ∧
    insertion_sort_p
        [⟨0, "idle", F32.nan⟩, ⟨1, "busy", F32.val 0⟩] = none := by
  obtain ⟨m, hm, -⟩ := insertion_sort_p_total l h
  exact ⟨by rw [hm]; rfl, by decide, by decide⟩

/-- C10 witness: a concrete all-finite cycle sorts without panic. -/
theorem C10_witness :
    (insertion_sort_p
        [⟨1, "a", F32.val 2⟩, ⟨2, "b", F32.val 1⟩,
         ⟨3, "c", F32.val 2⟩]).isSome = true ∧
    F32.div (F32.val 0) (F32.val 0) = F32.nan ∧
    insertion_sort_p
        [⟨0, "idle", F32.nan⟩, ⟨1, "busy", F32.val 0⟩] = none :=
  C10_sort_unwrap_safe
    [⟨1, "a", F32.val 2⟩, ⟨2, "b", F32.val 1⟩, ⟨3, "c", F32.val 2⟩]
    (by decide)

end CpuUsageLogger
